import Mathlib

/-
Verification development for the vehicle trace relevance engine
(Trace.py, TraceMatch.py and collaborators).

The Python source is shallowly embedded: coordinates are real numbers,
object mutation becomes explicit state passing on a TraceState record,
and routines whose Python original can raise (the exception handler of
the source swallows the exception and returns the integer 1) return an
Option, with none standing for the exception path.
-/

noncomputable section

namespace VehicleTrace

/-- 2D point in the simulator coordinate frame, with the attribute names
used throughout Trace.py. -/
structure Vec where
  X : ℝ
  Y : ℝ

/-- Modelled from the spec: the Vector class consumed by Trace.py
(attributes X and Y, methods getDistance and getAngle) is not among the
source files (src/Vector.py declares an incompatible class that Trace.py
does not import).  Spec section 3 gives distance(a,b) = hypot(b.x-a.x, b.y-a.y). -/
def getDistance (a b : Vec) : ℝ :=
  Real.sqrt ((b.X - a.X) ^ 2 + (b.Y - a.Y) ^ 2)

/-- Modelled from the spec: the unsigned angle in [0, pi] between two
vectors, as used by getDirection via yVector.getAngle(scaledPosition)
(spec section 4.A).  The degenerate zero vector yields 0, matching the
spec rule that direction(p, p) = 0. -/
def getAngle (a b : Vec) : ℝ :=
  if (a.X = 0 ∧ a.Y = 0) ∨ (b.X = 0 ∧ b.Y = 0) then 0
  else Real.arccos ((a.X * b.X + a.Y * b.Y) /
    (Real.sqrt (a.X ^ 2 + a.Y ^ 2) * Real.sqrt (b.X ^ 2 + b.Y ^ 2)))

/-- Trace.getDirection (Trace.py lines 197-223): the direction from pos1
to pos2, clockwise from the +Y axis, in [0, 2*pi). -/
def getDirection (pos1 pos2 : Vec) : ℝ :=
  let x := pos2.X - pos1.X
  let y := pos2.Y - pos1.Y
  let directionAngle := getAngle ⟨0, 1⟩ ⟨x, y⟩
  if 0 < x then 2 * Real.pi - directionAngle else directionAngle

/-- Trace.TRACE_MIN_DIST (Trace.py line 47). -/
def TRACE_MIN_DIST : ℝ := 10

/-- Trace.TRACE_MAX_DIST (Trace.py line 48). -/
def TRACE_MAX_DIST : ℝ := 200

/-- Trace.TRACE_MAX_OFFSET (Trace.py line 49). -/
def TRACE_MAX_OFFSET : ℝ := 10

/-- Trace.TRACE_MAX_HEDINGDELTA = math.radians(45) (Trace.py line 50). -/
def TRACE_MAX_HEDINGDELTA : ℝ := 45 * (Real.pi / 180)

/-- Trace.TRACE_N_MAX (Trace.py line 51). -/
def TRACE_N_MAX : ℕ := 16

/-- Trace.MATCH_MAX_OFFSET (Trace.py line 54). -/
def MATCH_MAX_OFFSET : ℝ := 20

/-- Trace.MATCH_MAX_HEADINGDELTA = math.radians(60) (Trace.py line 55). -/
def MATCH_MAX_HEADINGDELTA : ℝ := 60 * (Real.pi / 180)

/-- Trace.MATCH_DIST_SMOOTH (Trace.py line 56). -/
def MATCH_DIST_SMOOTH : ℝ := 20

/-- Trace.QUALITY_DELTA (Trace.py line 59). -/
def QUALITY_DELTA : ℝ := 1 / 100

/-- Trace.MIN_EVALUATION_TRACE_LENGHT (Trace.py line 61). -/
def MIN_EVALUATION_TRACE_LENGHT : ℝ := 1000

/-- One entry of the point list: the 4-tuple
(position, currenttime, velocity, vehID) inserted by addTracePoint
(Trace.py line 147).  The wall-clock creation time is modelled as a
strictly increasing admission counter, which is faithful to a monotone
clock and makes admission order explicit. -/
structure TracePoint where
  pos : Vec
  time : ℕ
  vel : ℝ
  veh : ℕ

/-- Placeholder trace point for total head access; every use site is
guarded so that the list is nonempty there, mirroring the Python code
where an empty list would raise inside the swallowed try block. -/
def dummyTracePoint : TracePoint := ⟨⟨0, 0⟩, 0, 0, 0⟩

/-- The mutable state of a Trace object (Trace.py lines 62-96). -/
structure TraceState where
  points : List TracePoint
  odometer : ℝ
  ntptotal : ℤ
  alphamin : ℝ
  alphamax : ℝ
  referencePosition : Vec
  currentPos : Option Vec
  vehID : ℕ
  virtualEvaluationPoints : List TracePoint
  clock : ℕ

/-- Trace.calcTraceLength (Trace.py lines 841-855): sum of the distances
between consecutive points of the list. -/
def calcTraceLength : List TracePoint → ℝ
  | [] => 0
  | [_] => 0
  | p :: q :: rest => getDistance p.pos q.pos + calcTraceLength (q :: rest)

/-- Trace.__addTracePoint (Trace.py lines 124-154): evict the oldest point
when the buffer is full (archiving it to virtualEvaluationPoints when the
live trace is still short), insert the new point at the head, reset the
odometer and the angular tube, and bump the total counter. -/
def addTracePoint (t : TraceState) (x y velocity : ℝ) : TraceState :=
  let t1 :=
    if TRACE_N_MAX ≤ t.points.length then
      { t with
        virtualEvaluationPoints :=
          if calcTraceLength t.points < MIN_EVALUATION_TRACE_LENGHT then
            match t.points.getLast? with
            | some p => p :: t.virtualEvaluationPoints
            | none => t.virtualEvaluationPoints
          else t.virtualEvaluationPoints
        points := t.points.dropLast
        ntptotal := t.ntptotal - 1 }
    else t
  { t1 with
    points := ⟨⟨x, y⟩, t1.clock, velocity, t1.vehID⟩ :: t1.points
    clock := t1.clock + 1
    odometer := 0
    alphamin := 0
    alphamax := 2 * Real.pi
    ntptotal := t1.ntptotal + 1 }

/-- Trace.__addTracePointByPosition (Trace.py lines 118-121). -/
def addTracePointByPosition (t : TraceState) (position : Vec) (v : ℝ) : TraceState :=
  addTracePoint t position.X position.Y v

/-- Trace.__init__ (Trace.py lines 82-96): empty point list, then the
initial position is admitted as the first trace point. -/
def mkTrace (initialPosition : Vec) (initialV : ℝ) (initialVehId : ℕ) : TraceState :=
  addTracePointByPosition
    { points := []
      odometer := 0
      ntptotal := 0
      alphamin := 0
      alphamax := 0
      referencePosition := initialPosition
      currentPos := none
      vehID := initialVehId
      virtualEvaluationPoints := []
      clock := 0 } initialPosition initialV

/-- The guard of the angular tube recalculation (Trace.py line 477),
with betamin and betamax passed explicitly. -/
def tubeGuard (alphamin alphamax betamin betamax : ℝ) : Prop :=
  (alphamin ≤ betamin ∧ betamin ≤ alphamax) ∨ (betamax ≤ alphamax ∧ betamax ≤ alphamin)

instance (a b c d : ℝ) : Decidable (tubeGuard a b c d) := by
  unfold tubeGuard
  infer_instance

/-- The angular tube recalculation of processNewPosition
(Trace.py lines 472-481), factored over the current tube, the distance
from the newest trace point to the new position and the direction toward
it.  Returns the new pair (alphamin, alphamax). -/
def tubeUpdate (alphamin alphamax dist dir : ℝ) : ℝ × ℝ :=
  if MATCH_MAX_OFFSET < dist then
    let beta := Real.arcsin (TRACE_MAX_OFFSET / dist)
    let betamin := dir - beta
    let betamax := dir + beta
    if tubeGuard alphamin alphamax betamin betamax then
      (if alphamin < betamin then betamin else alphamin,
       if betamax < alphamax then betamax else alphamax)
    else (alphamin, alphamax)
  else (alphamin, alphamax)

/-- Trace.processNewPosition (Trace.py lines 421-490): possible admission
of a point at the previous position, odometer update, angular tube
recalculation, and update of the current position. -/
def processNewPosition (t : TraceState) (newPos : Vec) (curSpeed : ℝ) : TraceState :=
  match t.currentPos with
  | none => { t with currentPos := some newPos }
  | some cur =>
    let edgelength := getDistance cur newPos
    let newOdometer := t.odometer + edgelength
    let t1 :=
      if t.points.length = 0 then
        addTracePointByPosition t cur curSpeed
      else if TRACE_MIN_DIST ≤ t.odometer then
        let lasttp := (t.points.headD dummyTracePoint).pos
        let dir := getDirection lasttp newPos
        let newPosHeading := getDirection cur newPos
        if TRACE_MAX_DIST ≤ newOdometer then
          addTracePointByPosition t cur curSpeed
        else if TRACE_MAX_HEDINGDELTA < |dir - newPosHeading| then
          addTracePointByPosition t cur curSpeed
        else if dir < t.alphamin ∨ t.alphamax < dir then
          addTracePointByPosition t cur curSpeed
        else t
      else t
    let t2 := { t1 with odometer := t1.odometer + edgelength }
    let lasttp := (t2.points.headD dummyTracePoint).pos
    let dist := getDistance lasttp newPos
    let dir := getDirection lasttp newPos
    let ab := tubeUpdate t2.alphamin t2.alphamax dist dir
    { t2 with alphamin := ab.1, alphamax := ab.2, currentPos := some newPos }

/-- TraceMatch.STATUS_MATCH (TraceMatch.py line 14). -/
def STATUS_MATCH : ℕ := 0

/-- TraceMatch.STATUS_NO_MATCH_RELEVANCE_AREA (TraceMatch.py line 15). -/
def STATUS_NO_MATCH_RELEVANCE_AREA : ℕ := 1

/-- TraceMatch.STATUS_NO_MATCH_HEADING (TraceMatch.py line 16). -/
def STATUS_NO_MATCH_HEADING : ℕ := 2

/-- TraceMatch.STATUS_NO_MATCH_TRACE (TraceMatch.py line 17). -/
def STATUS_NO_MATCH_TRACE : ℕ := 3

/-- TraceMatch.STATUS_NO_MATCH_UNDEFINED (TraceMatch.py line 18). -/
def STATUS_NO_MATCH_UNDEFINED : ℕ := 4

/-- The TraceMatch record (TraceMatch.py). -/
structure TraceMatchR where
  matchQuality : ℝ
  matchDistance : ℝ
  matchStatus : ℕ

/-- TraceMatch.__init__ (TraceMatch.py lines 24-27): quality 0,
distance 9999, status NO_MATCH_UNDEFINED. -/
def defaultTraceMatch : TraceMatchR :=
  { matchQuality := 0, matchDistance := 9999, matchStatus := STATUS_NO_MATCH_UNDEFINED }

/-- Trace.__calcMatchQuality (Trace.py lines 828-838). -/
def calcMatchQuality (offset hddelta : ℝ) : ℝ :=
  0.7 * (1 - offset / MATCH_MAX_OFFSET) + 0.3 * (1 - hddelta / MATCH_MAX_HEADINGDELTA)

/-- Trace.__calcCombinedMatchQuality (Trace.py lines 639-647). -/
def calcCombinedMatchQuality (offset hddelta oldquality oldegodist : ℝ) : ℝ :=
  let smq := calcMatchQuality offset hddelta
  let sf := max 0 (1 - oldegodist / MATCH_DIST_SMOOTH)
  sf * oldquality + (1 - sf) * smq

/-- Trace.__calcEdgeDistance (Trace.py lines 738-777): distance from P to
the infinite line through edgeP1 and edgeP2; none models the
NotEnoughTracePointsException raised on a degenerate edge. -/
def calcEdgeDistance (edgeP1 edgeP2 P : Vec) : Option ℝ :=
  if edgeP2.X ≠ edgeP1.X then
    let a := (edgeP2.Y - edgeP1.Y) / (edgeP2.X - edgeP1.X)
    let b := (1 : ℝ)
    let c := -(edgeP1.Y - a * edgeP1.X)
    let normal := -a * P.X + b * P.Y + c
    some |normal / Real.sqrt (a * a + b * b)|
  else if edgeP2.Y ≠ edgeP1.Y then
    some |P.X - edgeP1.X|
  else none

/-- Trace.calcCurrentTraceHeading (Trace.py lines 404-414): direction from
the second newest to the newest trace point; none models the
NotEnoughTracePointsException raised with fewer than 2 points. -/
def calcCurrentTraceHeading (t : TraceState) : Option ℝ :=
  match t.points with
  | p0 :: p1 :: _ => some (getDirection p1.pos p0.pos)
  | _ => none

/-- The loop state of the sweep in matchToPosition
(Trace.py lines 541-605): best match values, accumulated raw distance,
and the in-loop copies of the old match distance and quality. -/
structure SweepState where
  bmquality : ℝ
  bmoffset : ℝ
  bmrawdist : ℝ
  bmtp : Option Vec
  rawdist : ℝ
  oldMD : ℝ
  oldMQ : ℝ

/-- Initial sweep state (Trace.py lines 542-546). -/
def initSweep : SweepState :=
  { bmquality := 0, bmoffset := 9999, bmrawdist := 0, bmtp := none,
    rawdist := 0, oldMD := 9999, oldMQ := 0 }

/-- The point-pair sweep of matchToPosition (Trace.py lines 549-605),
iterating consecutive pairs (rp1, rp2), faithfully re-initializing
oldMD and oldMQ at the top of every iteration as the source does.
The two directionAngle values of the source are computed but unused
(their filter is commented out) and are omitted.  none models the
exception path on a degenerate edge. -/
def sweep (heading : ℝ) (position : Vec) (prior : Option TraceMatchR) :
    Vec → List TracePoint → SweepState → Option SweepState
  | _, [], s => some s
  | rp1, rp2 :: rest, s =>
    match calcEdgeDistance rp1 rp2.pos position with
    | none => none
    | some offset =>
      let currentTraceDirection := getDirection rp2.pos rp1
      let hddelta := |heading - currentTraceDirection|
      let s1 :=
        if offset ≤ MATCH_MAX_OFFSET ∧ hddelta ≤ MATCH_MAX_HEADINGDELTA then
          let omd := match prior with
            | some o => o.matchDistance
            | none => (9999 : ℝ)
          let omq := match prior with
            | some o => o.matchQuality
            | none => (0 : ℝ)
          let quality := match prior with
            | some o => calcCombinedMatchQuality offset hddelta o.matchQuality o.matchDistance
            | none => calcMatchQuality offset hddelta
          if s.bmquality + QUALITY_DELTA < quality then
            { bmquality := quality, bmoffset := offset, bmrawdist := s.rawdist,
              bmtp := some rp1, rawdist := s.rawdist, oldMD := omd, oldMQ := omq }
          else
            { s with oldMD := omd, oldMQ := omq }
        else
          { s with oldMD := 9999, oldMQ := 0 }
      sweep heading position prior rp2.pos rest
        { s1 with rawdist := s1.rawdist + getDistance rp1 rp2.pos }

/-- Trace.matchToPosition (Trace.py lines 494-636).  The forwarding area
is any predicate on coordinates, mirroring the duck-typed contains.
none models the swallowed-exception path of the source (which returns
the integer 1 instead of a TraceMatch). -/
def matchToPosition (t : TraceState) (position : Vec) (heading : ℝ)
    (forwardingArea : ℝ → ℝ → Bool) (oldTraceMatch : Option TraceMatchR) :
    Option TraceMatchR :=
  match t.points with
  | p0 :: p1 :: rest =>
    if forwardingArea position.X position.Y then
      let directionToRefPos := getDirection position t.referencePosition
      let cth := getDirection p1.pos p0.pos
      if cth + Real.pi / 2 < directionToRefPos ∨ directionToRefPos < cth - Real.pi / 2 then
        some { defaultTraceMatch with matchStatus := STATUS_NO_MATCH_HEADING }
      else
        match sweep heading position oldTraceMatch p0.pos (p1 :: rest) initSweep with
        | none => none
        | some s =>
          if s.bmoffset < 9999 then
            match s.bmtp with
            | some tp =>
              let matchdist := getDistance position tp + s.bmrawdist
              if s.oldMD < matchdist then
                some { matchQuality := s.oldMQ, matchDistance := s.oldMD,
                       matchStatus := STATUS_MATCH }
              else
                some { matchQuality := s.bmquality, matchDistance := matchdist,
                       matchStatus := STATUS_MATCH }
            | none => none
          else
            some { defaultTraceMatch with matchStatus := STATUS_NO_MATCH_TRACE }
    else
      some { defaultTraceMatch with matchStatus := STATUS_NO_MATCH_RELEVANCE_AREA }
  | _ => some defaultTraceMatch

/-- State-passing view of matchToPosition: the method reads the trace but
performs no assignment to any field of self, so the state it leaves
behind is the state it received. -/
def matchToPositionS (t : TraceState) (position : Vec) (heading : ℝ)
    (forwardingArea : ℝ → ℝ → Bool) (oldTraceMatch : Option TraceMatchR) :
    Option TraceMatchR × TraceState :=
  (matchToPosition t position heading forwardingArea oldTraceMatch, t)

/-- Trace.getEvaluationPoints (Trace.py lines 176-183): the source returns
self.__points.extend(self.__virtualEvaluationPoints), a call that mutates
the point list in place and evaluates to None.  The embedding returns the
produced value together with the mutated state. -/
def getEvaluationPoints (t : TraceState) : Option (List TracePoint) × TraceState :=
  (none, { t with points := t.points ++ t.virtualEvaluationPoints })

/-- The inner while loop of Trace.__matchToOtherTrace
(Trace.py lines 686-699), walking index i2 through the other trace with
an explicit fuel argument; fuel rps2.length is enough because i2 grows
with every continuing iteration.  none models the exception path raised
by a degenerate edge.  The result is (i2, totaloffsets, totalmatches, dist). -/
def innerWhile (rps2 : List TracePoint) (xoff yoff : ℝ) (rp1 rp2 : Vec) :
    ℕ → ℕ → ℝ → ℕ → ℝ → Option (ℕ × ℝ × ℕ × ℝ)
  | 0, i2, totaloffsets, totalmatches, dist => some (i2, totaloffsets, totalmatches, dist)
  | fuel + 1, i2, totaloffsets, totalmatches, dist =>
    if h : i2 < rps2.length then
      let p := rps2.get ⟨i2, h⟩
      let tmprp : Vec := ⟨p.pos.X + xoff, p.pos.Y + yoff⟩
      match calcEdgeDistance rp1 rp2 tmprp with
      | none => none
      | some offset =>
        if offset < MATCH_MAX_OFFSET then
          innerWhile rps2 xoff yoff rp1 rp2 fuel (i2 + 1) (totaloffsets + offset)
            (totalmatches + 1)
            (if i2 = 0 then dist + getDistance rp1 tmprp else dist)
        else
          some (i2, totaloffsets, totalmatches,
            if i2 = 0 then dist + getDistance rp1 rp2 else dist)
    else some (i2, totaloffsets, totalmatches, dist)

/-- The outer for loop of Trace.__matchToOtherTrace
(Trace.py lines 680-701), sliding the pair (rp1, rp2) over this trace
while i2 persists across iterations. -/
def outerLoop (rps2 : List TracePoint) (xoff yoff : ℝ) :
    Vec → List TracePoint → ℕ × ℝ × ℕ × ℝ → Option (ℕ × ℝ × ℕ × ℝ)
  | _, [], st => some st
  | rp1, rp2 :: rest, (i2, totaloffsets, totalmatches, dist) =>
    match innerWhile rps2 xoff yoff rp1 rp2.pos rps2.length i2 totaloffsets
        totalmatches dist with
    | none => none
    | some st1 => outerLoop rps2 xoff yoff rp2.pos rest st1

/-- Trace.__matchToOtherTrace (Trace.py lines 651-716).  The quotient
totalmatches / len(rps2) is Python 2 integer division and is modelled by
natural division.  none models the exception path. -/
def matchToOtherTraceAux (t other : TraceState) (xoff yoff : ℝ) : Option ℝ :=
  let rps2 := other.points
  let res :=
    match t.points with
    | [] => some ((0 : ℕ), (0 : ℝ), (0 : ℕ), (0 : ℝ))
    | rp1 :: rest => outerLoop rps2 xoff yoff rp1.pos rest (0, 0, 0, 0)
  match res with
  | none => none
  | some (_, totaloffsets, totalmatches, _) =>
    if 0 < totalmatches then
      let avgoffset := totaloffsets / (totalmatches : ℝ)
      some ((((totalmatches / rps2.length : ℕ) : ℝ)) *
        (1 - avgoffset / MATCH_MAX_OFFSET))
    else some 0

/-- Trace.matchToOtherTrace (Trace.py lines 720-734); the swallowed
exception handler of the source returns the integer 1, which is kept. -/
def matchToOtherTrace (t atrace : TraceState) : ℝ :=
  let a2xoff := atrace.referencePosition.X - t.referencePosition.X
  let a2yoff := atrace.referencePosition.Y - t.referencePosition.Y
  match matchToOtherTraceAux t atrace a2xoff a2yoff with
  | none => 1
  | some q => q

/-- Concrete trace used to evaluate the matcher on a specific input:
points newest first at (0,100), (0,50), (0,60), reference position
(1,1000). -/
def exTraceC2 : TraceState :=
  { points := [⟨⟨0, 100⟩, 2, 0, 0⟩, ⟨⟨0, 50⟩, 1, 0, 0⟩, ⟨⟨0, 60⟩, 0, 0, 0⟩]
    odometer := 0
    ntptotal := 3
    alphamin := 0
    alphamax := 2 * Real.pi
    referencePosition := ⟨1, 1000⟩
    currentPos := none
    vehID := 0
    virtualEvaluationPoints := []
    clock := 3 }

/-- Concrete trace with a single point, for the matcher default case. -/
def exOnePoint : TraceState :=
  { points := [⟨⟨0, 0⟩, 0, 0, 0⟩]
    odometer := 0
    ntptotal := 1
    alphamin := 0
    alphamax := 2 * Real.pi
    referencePosition := ⟨0, 0⟩
    currentPos := none
    vehID := 0
    virtualEvaluationPoints := []
    clock := 1 }

/-- Concrete trace with two points, for the current trace heading. -/
def exTwoPoint : TraceState :=
  { points := [⟨⟨0, 30⟩, 1, 0, 0⟩, ⟨⟨0, 0⟩, 0, 0, 0⟩]
    odometer := 0
    ntptotal := 2
    alphamin := 0
    alphamax := 2 * Real.pi
    referencePosition := ⟨0, 0⟩
    currentPos := none
    vehID := 0
    virtualEvaluationPoints := []
    clock := 2 }

/-- Concrete trace holding one live point and one archived virtual
evaluation point. -/
def exVirtual : TraceState :=
  { points := [⟨⟨0, 10⟩, 1, 0, 0⟩]
    odometer := 0
    ntptotal := 1
    alphamin := 0
    alphamax := 2 * Real.pi
    referencePosition := ⟨0, 0⟩
    currentPos := none
    vehID := 0
    virtualEvaluationPoints := [⟨⟨0, 0⟩, 0, 0, 0⟩]
    clock := 2 }

/-- Concrete two-call run of processNewPosition used to evaluate the
angular tube recalculation: trace created at (0,0), first call at
(0,30), second call at (0,60). -/
def c3_t1 : TraceState := processNewPosition (mkTrace ⟨0, 0⟩ 0 0) ⟨0, 30⟩ 0

/-- Second call of the concrete run behind c3_t1. -/
def c3_t2 : TraceState := processNewPosition c3_t1 ⟨0, 60⟩ 0

/-- The reachability invariant of the point buffer: bounded size, strictly
decreasing admission times from the head, and all admission times below
the clock. -/
def TraceInv (t : TraceState) : Prop :=
  t.points.length ≤ TRACE_N_MAX ∧
  t.points.Pairwise (fun a b => b.time < a.time) ∧
  ∀ p ∈ t.points, p.time < t.clock

/-- The invariant of the double-pointer walk of matchToOtherTrace: the
match counter equals the consumed index, the index is bounded by the
other point list, and the accumulated offsets are nonnegative and below
MATCH_MAX_OFFSET per match. -/
def WalkInv (n2 : ℕ) (st : ℕ × ℝ × ℕ × ℝ) : Prop :=
  st.2.2.1 = st.1 ∧ st.1 ≤ n2 ∧ 0 ≤ st.2.1 ∧ st.2.1 ≤ MATCH_MAX_OFFSET * st.2.2.1

theorem getDistance_vert (x y1 y2 : ℝ) :
    getDistance ⟨x, y1⟩ ⟨x, y2⟩ = |y2 - y1| := by
  simp [getDistance, Real.sqrt_sq_eq_abs]

theorem getDirection_up (x y1 y2 : ℝ) (h : y1 < y2) :
    getDirection ⟨x, y1⟩ ⟨x, y2⟩ = 0 := by
  have hd : y2 - y1 ≠ 0 := sub_ne_zero.mpr (ne_of_gt h)
  have hd0 : 0 < y2 - y1 := sub_pos.mpr h
  simp only [getDirection, getAngle, sub_self, lt_self_iff_false, if_false]
  rw [if_neg]
  · have hs : Real.sqrt ((0 : ℝ) ^ 2 + (1 : ℝ) ^ 2) = 1 := by
      norm_num
    have hs2 : Real.sqrt ((0 : ℝ) ^ 2 + (y2 - y1) ^ 2) = y2 - y1 := by
      rw [show (0 : ℝ) ^ 2 + (y2 - y1) ^ 2 = (y2 - y1) ^ 2 by ring]
      exact Real.sqrt_sq (le_of_lt hd0)
    rw [hs, hs2]
    have : (0 * 0 + 1 * (y2 - y1)) / (1 * (y2 - y1)) = 1 := by
      field_simp
    rw [this, Real.arccos_one]
  · simp [hd]

theorem getDirection_down (x y1 y2 : ℝ) (h : y2 < y1) :
    getDirection ⟨x, y1⟩ ⟨x, y2⟩ = Real.pi := by
  have hd : y2 - y1 ≠ 0 := sub_ne_zero.mpr (ne_of_lt h)
  have hd0 : y2 - y1 < 0 := sub_neg.mpr h
  simp only [getDirection, getAngle, sub_self, lt_self_iff_false, if_false]
  rw [if_neg]
  · have hs : Real.sqrt ((0 : ℝ) ^ 2 + (1 : ℝ) ^ 2) = 1 := by
      norm_num
    have hs2 : Real.sqrt ((0 : ℝ) ^ 2 + (y2 - y1) ^ 2) = -(y2 - y1) := by
      rw [show (0 : ℝ) ^ 2 + (y2 - y1) ^ 2 = (-(y2 - y1)) ^ 2 by ring]
      exact Real.sqrt_sq (by linarith)
    rw [hs, hs2]
    have hne : y1 - y2 ≠ 0 := sub_ne_zero.mpr (ne_of_gt h)
    have : (0 * 0 + 1 * (y2 - y1)) / (1 * -(y2 - y1)) = -1 := by
      field_simp
    rw [this, Real.arccos_neg_one]
  · simp [hd]

theorem addTracePoint_points (t : TraceState) (x y v : ℝ) :
    (addTracePoint t x y v).points =
      ⟨⟨x, y⟩, t.clock, v, t.vehID⟩ ::
        (if TRACE_N_MAX ≤ t.points.length then t.points.dropLast else t.points) ∧
    (addTracePoint t x y v).clock = t.clock + 1 := by
  unfold addTracePoint
  split_ifs with hc <;> simp [hc]

theorem addTracePoint_length (t : TraceState) (x y v : ℝ) :
    (addTracePoint t x y v).points.length ≤ t.points.length + 1 := by
  obtain ⟨hp, -⟩ := addTracePoint_points t x y v
  rw [hp]
  rw [List.length_cons]
  split_ifs with hc
  · rw [List.length_dropLast]
    omega
  · omega

theorem traceInv_addTracePoint {t : TraceState} (h : TraceInv t) (x y v : ℝ) :
    TraceInv (addTracePoint t x y v) := by
  obtain ⟨h1, h2, h3⟩ := h
  obtain ⟨hp, hck⟩ := addTracePoint_points t x y v
  have hsub : List.Sublist
      (if TRACE_N_MAX ≤ t.points.length then t.points.dropLast else t.points)
      t.points := by
    split_ifs
    · exact List.dropLast_sublist t.points
    · exact List.Sublist.refl t.points
  refine ⟨?_, ?_, ?_⟩
  · rw [hp, List.length_cons]
    simp only [TRACE_N_MAX] at h1 ⊢
    split_ifs with hc
    · rw [List.length_dropLast]
      omega
    · simp only [TRACE_N_MAX] at hc
      omega
  · rw [hp]
    refine List.pairwise_cons.mpr ⟨?_, h2.sublist hsub⟩
    intro a ha
    exact h3 a (hsub.subset ha)
  · rw [hp, hck]
    intro p hp2
    rw [List.mem_cons] at hp2
    rcases hp2 with rfl | hp3
    · exact Nat.lt_succ_self t.clock
    · exact Nat.lt_succ_of_lt (h3 _ (hsub.subset hp3))

theorem processNewPosition_shape (t : TraceState) (p : Vec) (v : ℝ) :
    ((processNewPosition t p v).points = t.points ∧
      (processNewPosition t p v).clock = t.clock)
    ∨ ∃ cur, (processNewPosition t p v).points =
          (addTracePointByPosition t cur v).points ∧
        (processNewPosition t p v).clock = (addTracePointByPosition t cur v).clock := by
  unfold processNewPosition
  cases hc : t.currentPos with
  | none => exact Or.inl ⟨rfl, rfl⟩
  | some cur =>
    dsimp only
    split_ifs <;> first
      | exact Or.inl ⟨rfl, rfl⟩
      | exact Or.inr ⟨cur, rfl, rfl⟩

theorem traceInv_processNewPosition {t : TraceState} (h : TraceInv t) (p : Vec) (v : ℝ) :
    TraceInv (processNewPosition t p v) := by
  obtain ⟨h1, h2⟩ | ⟨cur, h1, h2⟩ := processNewPosition_shape t p v
  · exact ⟨h1 ▸ h.1, h1 ▸ h.2.1, by rw [h1, h2]; exact h.2.2⟩
  · have := traceInv_addTracePoint h cur.X cur.Y v
    unfold addTracePointByPosition at h1 h2
    exact ⟨h1 ▸ this.1, h1 ▸ this.2.1, by rw [h1, h2]; exact this.2.2⟩

theorem traceInv_mkTrace (initPos : Vec) (initV : ℝ) (vehId : ℕ) :
    TraceInv (mkTrace initPos initV vehId) := by
  unfold mkTrace addTracePointByPosition
  exact traceInv_addTracePoint ⟨by simp [TRACE_N_MAX], by simp, by simp⟩ _ _ _

theorem traceInv_foldl (t : TraceState) (h : TraceInv t) (inputs : List (Vec × ℝ)) :
    TraceInv (inputs.foldl (fun s i => processNewPosition s i.1 i.2) t) := by
  induction inputs generalizing t with
  | nil => exact h
  | cons i rest ih => exact ih _ (traceInv_processNewPosition h i.1 i.2)

/-- C1: after construction and any sequence of processNewPosition calls,
the trace holds between 0 and TRACE_N_MAX points, and the points are
strictly ordered by admission time, newest first (the point at index 0 is
the most recently admitted one). -/
theorem C1_bounded_ordered_trace (initPos : Vec) (initV : ℝ) (vehId : ℕ)
    (inputs : List (Vec × ℝ)) :
    0 ≤ (inputs.foldl (fun s i => processNewPosition s i.1 i.2)
          (mkTrace initPos initV vehId)).points.length ∧
    (inputs.foldl (fun s i => processNewPosition s i.1 i.2)
        (mkTrace initPos initV vehId)).points.length ≤ TRACE_N_MAX ∧
    (inputs.foldl (fun s i => processNewPosition s i.1 i.2)
        (mkTrace initPos initV vehId)).points.Pairwise
      (fun a b => b.time < a.time) := by
  have h := traceInv_foldl _ (traceInv_mkTrace initPos initV vehId) inputs
  exact ⟨Nat.zero_le _, h.1, h.2.1⟩

/-- C4: a single processNewPosition call appends at most one trace point,
and on exit the current position equals the new position. -/
theorem C4_single_call (t : TraceState) (newPos : Vec) (v : ℝ) :
    (processNewPosition t newPos v).points.length ≤ t.points.length + 1 ∧
    (processNewPosition t newPos v).currentPos = some newPos := by
  constructor
  · obtain ⟨h1, -⟩ | ⟨cur, h1, -⟩ := processNewPosition_shape t newPos v
    · rw [h1]
      omega
    · rw [h1]
      exact addTracePoint_length t cur.X cur.Y v
  · unfold processNewPosition
    cases hc : t.currentPos with
    | none => rfl
    | some cur => rfl

theorem tubeUpdate_shrink (amin amax dist dir : ℝ) :
    amin ≤ (tubeUpdate amin amax dist dir).1 ∧
    (tubeUpdate amin amax dist dir).2 ≤ amax := by
  constructor <;>
  · unfold tubeUpdate
    dsimp only
    split_ifs <;> dsimp only <;> linarith

theorem processNewPosition_alpha (t : TraceState) (p : Vec) (v : ℝ)
    (h : (processNewPosition t p v).clock = t.clock) :
    ∃ dist dir,
      (processNewPosition t p v).alphamin = (tubeUpdate t.alphamin t.alphamax dist dir).1 ∧
      (processNewPosition t p v).alphamax = (tubeUpdate t.alphamin t.alphamax dist dir).2 := by
  revert h
  unfold processNewPosition
  cases hc : t.currentPos with
  | none =>
    intro h
    refine ⟨0, 0, ?_, ?_⟩ <;>
      norm_num [tubeUpdate, MATCH_MAX_OFFSET]
  | some cur =>
    dsimp only
    split_ifs with h1 h2 h3 h4 h5 <;>
      intro hck <;>
      first
        | exact ⟨_, _, rfl, rfl⟩
        | (exfalso
           obtain ⟨-, hclock⟩ := addTracePoint_points t cur.X cur.Y v
           unfold addTracePointByPosition at hck
           rw [hclock] at hck
           omega)

/-- C3 amended: when the distance from the newest trace point to the new
position exceeds MATCH_MAX_OFFSET, the angular tube is narrowed to
(max alpha_min (dir - beta), min alpha_max (dir + beta)) only when the
guard of Trace.py line 477 holds, and is left unchanged otherwise; a
processNewPosition call that admits no point never widens the tube, and
an admission resets the tube to the fully open range 0 to 2 pi. -/
theorem C3_conditional_tube_narrowing :
    (∀ amin amax dist dir, MATCH_MAX_OFFSET < dist →
      (tubeGuard amin amax (dir - Real.arcsin (TRACE_MAX_OFFSET / dist))
          (dir + Real.arcsin (TRACE_MAX_OFFSET / dist)) →
        tubeUpdate amin amax dist dir =
          (max amin (dir - Real.arcsin (TRACE_MAX_OFFSET / dist)),
           min amax (dir + Real.arcsin (TRACE_MAX_OFFSET / dist)))) ∧
      (¬ tubeGuard amin amax (dir - Real.arcsin (TRACE_MAX_OFFSET / dist))
          (dir + Real.arcsin (TRACE_MAX_OFFSET / dist)) →
        tubeUpdate amin amax dist dir = (amin, amax))) ∧
    (∀ t x y v, (addTracePoint t x y v).alphamin = 0 ∧
      (addTracePoint t x y v).alphamax = 2 * Real.pi) ∧
    (∀ t p v, (processNewPosition t p v).clock = t.clock →
      t.alphamin ≤ (processNewPosition t p v).alphamin ∧
      (processNewPosition t p v).alphamax ≤ t.alphamax) := by
  refine ⟨?_, ?_, ?_⟩
  · intro amin amax dist dir hdist
    constructor
    · intro hg
      unfold tubeUpdate
      rw [if_pos hdist]
      dsimp only
      rw [if_pos hg]
      have hmax : (if amin < dir - Real.arcsin (TRACE_MAX_OFFSET / dist) then
          dir - Real.arcsin (TRACE_MAX_OFFSET / dist) else amin) =
          max amin (dir - Real.arcsin (TRACE_MAX_OFFSET / dist)) := by
        split_ifs with h
        · exact (max_eq_right (le_of_lt h)).symm
        · exact (max_eq_left (le_of_not_lt h)).symm
      have hmin : (if dir + Real.arcsin (TRACE_MAX_OFFSET / dist) < amax then
          dir + Real.arcsin (TRACE_MAX_OFFSET / dist) else amax) =
          min amax (dir + Real.arcsin (TRACE_MAX_OFFSET / dist)) := by
        split_ifs with h
        · exact (min_eq_right (le_of_lt h)).symm
        · exact (min_eq_left (le_of_not_lt h)).symm
      rw [hmax, hmin]
    · intro hg
      unfold tubeUpdate
      rw [if_pos hdist]
      dsimp only
      rw [if_neg hg]
  · intro t x y v
    unfold addTracePoint
    constructor <;> rfl
  · intro t p v h
    obtain ⟨dist, dir, h1, h2⟩ := processNewPosition_alpha t p v h
    rw [h1, h2]
    exact tubeUpdate_shrink t.alphamin t.alphamax dist dir

theorem C3_conditional_tube_narrowing_witness :
    MATCH_MAX_OFFSET < (60 : ℝ) ∧ tubeUpdate 0 (2 * Real.pi) 60 0 = (0, 2 * Real.pi) := by
  have h60 : MATCH_MAX_OFFSET < (60 : ℝ) := by norm_num [MATCH_MAX_OFFSET]
  have harc : 0 < Real.arcsin (TRACE_MAX_OFFSET / 60) :=
    Real.arcsin_pos.mpr (by norm_num [TRACE_MAX_OFFSET])
  have hng : ¬ tubeGuard 0 (2 * Real.pi)
      ((0 : ℝ) - Real.arcsin (TRACE_MAX_OFFSET / 60))
      ((0 : ℝ) + Real.arcsin (TRACE_MAX_OFFSET / 60)) := by
    unfold tubeGuard
    push_neg
    constructor
    · intro hle
      exfalso
      linarith
    · intro _
      linarith
  exact ⟨h60, (C3_conditional_tube_narrowing.1 0 (2 * Real.pi) 60 0 h60).2 hng⟩

theorem c3_t1_eq : c3_t1 =
    { points := [⟨⟨0, 0⟩, 0, 0, 0⟩], odometer := 0, ntptotal := 1, alphamin := 0,
      alphamax := 2 * Real.pi, referencePosition := ⟨0, 0⟩, currentPos := some ⟨0, 30⟩,
      vehID := 0, virtualEvaluationPoints := [], clock := 1 } := by
  unfold c3_t1 mkTrace addTracePointByPosition addTracePoint processNewPosition
  norm_num [TRACE_N_MAX]

/-- C3 counterexample: in the second call of the concrete run the distance
from the newest trace point (0,0) to the new position (0,60) exceeds
MATCH_MAX_OFFSET and no point is admitted, yet alpha_max is not narrowed
to min(alpha_max, dir + beta): the guard of Trace.py line 477 rejects the
update, so the tube stays fully open. -/
theorem C3_unconditional_narrowing_counterexample :
    (c3_t1.points.headD dummyTracePoint).pos = (⟨0, 0⟩ : Vec) ∧
    MATCH_MAX_OFFSET < getDistance ⟨0, 0⟩ ⟨0, 60⟩ ∧
    c3_t2.points.length = c3_t1.points.length ∧
    c3_t2.alphamax ≠ min c3_t1.alphamax
      (getDirection ⟨0, 0⟩ ⟨0, 60⟩ +
        Real.arcsin (TRACE_MAX_OFFSET / getDistance ⟨0, 0⟩ ⟨0, 60⟩)) := by
  have hd60 : getDistance ⟨0, 0⟩ (⟨0, 60⟩ : Vec) = 60 := by
    rw [getDistance_vert]
    norm_num
  have hdir : getDirection ⟨0, 0⟩ (⟨0, 60⟩ : Vec) = 0 :=
    getDirection_up 0 0 60 (by norm_num)
  have harc0 : 0 < Real.arcsin (TRACE_MAX_OFFSET / 60) :=
    Real.arcsin_pos.mpr (by norm_num [TRACE_MAX_OFFSET])
  have harc2 : Real.arcsin (TRACE_MAX_OFFSET / 60) < 2 * Real.pi :=
    lt_of_le_of_lt (Real.arcsin_le_pi_div_two _) (by linarith [Real.pi_pos])
  have htube : tubeUpdate 0 (2 * Real.pi) 60 0 = (0, 2 * Real.pi) := by
    unfold tubeUpdate
    rw [if_pos (show MATCH_MAX_OFFSET < (60 : ℝ) by norm_num [MATCH_MAX_OFFSET])]
    dsimp only
    rw [if_neg]
    · unfold tubeGuard
      push_neg
      constructor
      · intro hle
        exfalso
        linarith
      · intro _
        linarith
  have hproj : c3_t2.points = c3_t1.points ∧ c3_t2.alphamax = 2 * Real.pi := by
    unfold c3_t2
    rw [c3_t1_eq]
    simp only [processNewPosition]
    norm_num [TRACE_MIN_DIST, hd60, hdir, htube, c3_t1_eq]
  refine ⟨?_, ?_, ?_, ?_⟩
  · rw [c3_t1_eq]
    rfl
  · rw [hd60]
    norm_num [MATCH_MAX_OFFSET]
  · rw [hproj.1]
  · rw [hproj.2, c3_t1_eq, hdir, hd60]
    simp only [zero_add]
    rw [min_eq_right (le_of_lt harc2)]
    exact ne_of_gt harc2

theorem convex_between (a b s : ℝ) (h0 : 0 ≤ s) (h1 : s ≤ 1) :
    min a b ≤ s * a + (1 - s) * b ∧ s * a + (1 - s) * b ≤ max a b := by
  constructor
  · calc min a b = s * min a b + (1 - s) * min a b := by ring
      _ ≤ s * a + (1 - s) * b :=
        add_le_add (mul_le_mul_of_nonneg_left (min_le_left a b) h0)
          (mul_le_mul_of_nonneg_left (min_le_right a b) (by linarith))
  · calc s * a + (1 - s) * b ≤ s * max a b + (1 - s) * max a b :=
        add_le_add (mul_le_mul_of_nonneg_left (le_max_left a b) h0)
          (mul_le_mul_of_nonneg_left (le_max_right a b) (by linarith))
      _ = max a b := by ring

/-- C5: for offsets within MATCH_MAX_OFFSET, heading deltas within
MATCH_MAX_HEADING_DELTA and a prior distance within MATCH_DIST_SMOOTH,
the combined match quality lies between the prior quality and the single
match quality. -/
theorem C5_smoothing_bound (offset hddelta pq pd : ℝ)
    (h1 : 0 ≤ offset) (h2 : offset ≤ MATCH_MAX_OFFSET)
    (h3 : 0 ≤ hddelta) (h4 : hddelta ≤ MATCH_MAX_HEADINGDELTA)
    (h5 : 0 ≤ pd) (h6 : pd ≤ MATCH_DIST_SMOOTH) :
    min pq (calcMatchQuality offset hddelta) ≤
      calcCombinedMatchQuality offset hddelta pq pd ∧
    calcCombinedMatchQuality offset hddelta pq pd ≤
      max pq (calcMatchQuality offset hddelta) := by
  have hcmq : calcCombinedMatchQuality offset hddelta pq pd =
      max 0 (1 - pd / MATCH_DIST_SMOOTH) * pq +
      (1 - max 0 (1 - pd / MATCH_DIST_SMOOTH)) * calcMatchQuality offset hddelta := rfl
  have hsf0 : 0 ≤ max 0 (1 - pd / MATCH_DIST_SMOOTH) := le_max_left 0 _
  have hsf1 : max 0 (1 - pd / MATCH_DIST_SMOOTH) ≤ 1 := by
    apply max_le
    · norm_num
    · have : 0 ≤ pd / MATCH_DIST_SMOOTH :=
        div_nonneg h5 (by norm_num [MATCH_DIST_SMOOTH])
      linarith
  rw [hcmq]
  exact convex_between pq (calcMatchQuality offset hddelta) _ hsf0 hsf1

theorem C5_smoothing_bound_witness :
    ((0 : ℝ) ≤ 0 ∧ (0 : ℝ) ≤ MATCH_MAX_OFFSET ∧ (0 : ℝ) ≤ MATCH_MAX_HEADINGDELTA ∧
      (0 : ℝ) ≤ 10 ∧ (10 : ℝ) ≤ MATCH_DIST_SMOOTH) ∧
    min (1 / 2) (calcMatchQuality 0 0) ≤ calcCombinedMatchQuality 0 0 (1 / 2) 10 ∧
    calcCombinedMatchQuality 0 0 (1 / 2) 10 ≤ max (1 / 2) (calcMatchQuality 0 0) := by
  have hmhd : (0 : ℝ) ≤ MATCH_MAX_HEADINGDELTA := by
    unfold MATCH_MAX_HEADINGDELTA
    positivity
  refine ⟨⟨le_refl 0, by norm_num [MATCH_MAX_OFFSET], hmhd, by norm_num,
    by norm_num [MATCH_DIST_SMOOTH]⟩, ?_⟩
  exact C5_smoothing_bound 0 0 (1 / 2) 10 (le_refl 0) (by norm_num [MATCH_MAX_OFFSET])
    (le_refl 0) hmhd (by norm_num) (by norm_num [MATCH_DIST_SMOOTH])

/-- C6: with fewer than 2 trace points, matchToPosition returns the
default TraceMatch (quality 0, distance 9999, status NO_MATCH_UNDEFINED)
for all arguments. -/
theorem C6_default_when_small (t : TraceState) (position : Vec) (heading : ℝ)
    (area : ℝ → ℝ → Bool) (prior : Option TraceMatchR)
    (h : t.points.length < 2) :
    matchToPosition t position heading area prior = some defaultTraceMatch := by
  unfold matchToPosition
  rcases ht : t.points with - | ⟨p0, - | ⟨p1, rest⟩⟩
  · rfl
  · rfl
  · rw [ht] at h
    simp at h
    omega

theorem C6_default_when_small_witness :
    exOnePoint.points.length < 2 ∧
    matchToPosition exOnePoint ⟨1, 2⟩ 0 (fun _ _ => true) none = some defaultTraceMatch :=
  ⟨by norm_num [exOnePoint],
    C6_default_when_small exOnePoint ⟨1, 2⟩ 0 (fun _ _ => true) none
      (by norm_num [exOnePoint])⟩

/-- C7: calcCurrentTraceHeading fails exactly when the trace has fewer
than 2 points, and otherwise returns the direction from the second newest
point to the newest point. -/
theorem C7_current_trace_heading (t : TraceState) :
    (calcCurrentTraceHeading t = none ↔ t.points.length < 2) ∧
    (∀ p0 p1 rest, t.points = p0 :: p1 :: rest →
      calcCurrentTraceHeading t = some (getDirection p1.pos p0.pos)) := by
  constructor
  · unfold calcCurrentTraceHeading
    rcases ht : t.points with - | ⟨p0, - | ⟨p1, rest⟩⟩ <;> simp
  · intro p0 p1 rest ht
    unfold calcCurrentTraceHeading
    rw [ht]

theorem C7_current_trace_heading_witness :
    exTwoPoint.points.length = 2 ∧
    calcCurrentTraceHeading exTwoPoint =
      some (getDirection (⟨0, 0⟩ : Vec) (⟨0, 30⟩ : Vec)) ∧
    calcCurrentTraceHeading exOnePoint = none := by
  refine ⟨rfl, ?_, ?_⟩
  · exact (C7_current_trace_heading exTwoPoint).2 _ _ _ rfl
  · exact (C7_current_trace_heading exOnePoint).1.mpr (by norm_num [exOnePoint])

/-- C9: evaluation of getEvaluationPoints on a concrete trace shows the
source returning the value of list.extend, which is None, and not the
concatenation of the live and virtual evaluation points that its
docstring announces. -/
theorem C9_returns_none_not_concatenation :
    (getEvaluationPoints exVirtual).1 = none ∧
    (getEvaluationPoints exVirtual).1 ≠
      some (exVirtual.points ++ exVirtual.virtualEvaluationPoints) ∧
    (getEvaluationPoints exVirtual).2.points =
      exVirtual.points ++ exVirtual.virtualEvaluationPoints := by
  refine ⟨rfl, ?_, rfl⟩
  simp [getEvaluationPoints]

/-- C10: matchToPosition never mutates the trace: every field of the
state it passes back equals the field of the state it received, for all
arguments. -/
theorem C10_match_does_not_mutate (t : TraceState) (position : Vec) (heading : ℝ)
    (area : ℝ → ℝ → Bool) (prior : Option TraceMatchR) :
    (matchToPositionS t position heading area prior).2.points = t.points ∧
    (matchToPositionS t position heading area prior).2.odometer = t.odometer ∧
    (matchToPositionS t position heading area prior).2.alphamin = t.alphamin ∧
    (matchToPositionS t position heading area prior).2.alphamax = t.alphamax ∧
    (matchToPositionS t position heading area prior).2.referencePosition =
      t.referencePosition ∧
    (matchToPositionS t position heading area prior).2.currentPos = t.currentPos ∧
    (matchToPositionS t position heading area prior).2.virtualEvaluationPoints =
      t.virtualEvaluationPoints :=
  ⟨rfl, rfl, rfl, rfl, rfl, rfl, rfl⟩

theorem calcEdgeDistance_nonneg (e1 e2 P : Vec) (r : ℝ)
    (h : calcEdgeDistance e1 e2 P = some r) : 0 ≤ r := by
  unfold calcEdgeDistance at h
  split_ifs at h <;>
    first
      | (injection h with h
         rw [← h]
         positivity)
      | exact absurd h (by simp)

theorem innerWhile_inv (rps2 : List TracePoint) (xoff yoff : ℝ) (rp1 rp2 : Vec)
    (fuel : ℕ) :
    ∀ (i2 : ℕ) (totaloffsets : ℝ) (totalmatches : ℕ) (dist : ℝ)
      (st' : ℕ × ℝ × ℕ × ℝ),
      WalkInv rps2.length (i2, totaloffsets, totalmatches, dist) →
      innerWhile rps2 xoff yoff rp1 rp2 fuel i2 totaloffsets totalmatches dist =
        some st' →
      WalkInv rps2.length st' := by
  induction fuel with
  | zero =>
    intro i2 totaloffsets totalmatches dist st' hinv h
    unfold innerWhile at h
    injection h with h
    rw [← h]
    exact hinv
  | succ fuel ih =>
    intro i2 totaloffsets totalmatches dist st' hinv h
    obtain ⟨hq, hi2, hto0, htoM⟩ := hinv
    unfold innerWhile at h
    by_cases hlt : i2 < rps2.length
    · rw [dif_pos hlt] at h
      dsimp only at h
      rcases hE : calcEdgeDistance rp1 rp2
          ⟨(rps2.get ⟨i2, hlt⟩).pos.X + xoff, (rps2.get ⟨i2, hlt⟩).pos.Y + yoff⟩
        with - | offset
      · rw [hE] at h
        exact absurd h (by simp)
      · rw [hE] at h
        dsimp only at h
        have hoff0 : 0 ≤ offset := calcEdgeDistance_nonneg _ _ _ _ hE
        dsimp only at hq hi2 hto0 htoM
        generalize (if i2 = 0 then
            dist + getDistance rp1
              ⟨(rps2.get ⟨i2, hlt⟩).pos.X + xoff, (rps2.get ⟨i2, hlt⟩).pos.Y + yoff⟩
          else dist) = dA at h
        generalize (if i2 = 0 then dist + getDistance rp1 rp2 else dist) = dB at h
        split_ifs at h with hoff
        · refine ih (i2 + 1) (totaloffsets + offset) (totalmatches + 1) dA st' ?_ h
          refine ⟨?_, ?_, ?_, ?_⟩ <;> dsimp only
          · omega
          · omega
          · linarith
          · push_cast
            push_cast at htoM
            nlinarith [le_of_lt hoff]
        · injection h with h
          rw [← h]
          exact ⟨hq, hi2, hto0, htoM⟩
    · rw [dif_neg hlt] at h
      injection h with h
      rw [← h]
      exact ⟨hq, hi2, hto0, htoM⟩

theorem outerLoop_inv (rps2 : List TracePoint) (xoff yoff : ℝ) :
    ∀ (l : List TracePoint) (rp1 : Vec) (st st' : ℕ × ℝ × ℕ × ℝ),
      WalkInv rps2.length st →
      outerLoop rps2 xoff yoff rp1 l st = some st' →
      WalkInv rps2.length st' := by
  intro l
  induction l with
  | nil =>
    intro rp1 st st' hinv h
    unfold outerLoop at h
    injection h with h
    rw [← h]
    exact hinv
  | cons rp2 rest ih =>
    intro rp1 st st' hinv h
    obtain ⟨i2, totaloffsets, totalmatches, dist⟩ := st
    unfold outerLoop at h
    rcases hI : innerWhile rps2 xoff yoff rp1 rp2.pos rps2.length i2 totaloffsets
        totalmatches dist with - | st1
    · rw [hI] at h
      exact absurd h (by simp)
    · rw [hI] at h
      exact ih rp2.pos st1 st'
        (innerWhile_inv rps2 xoff yoff rp1 rp2.pos rps2.length i2 totaloffsets
          totalmatches dist st1 hinv hI) h

theorem matchToOtherTraceAux_bounds (t other : TraceState) (xoff yoff : ℝ) (q : ℝ)
    (h : matchToOtherTraceAux t other xoff yoff = some q) : 0 ≤ q ∧ q ≤ 1 := by
  unfold matchToOtherTraceAux at h
  dsimp only at h
  have hres : ∀ st' : ℕ × ℝ × ℕ × ℝ,
      (match t.points with
        | [] => some ((0 : ℕ), (0 : ℝ), (0 : ℕ), (0 : ℝ))
        | rp1 :: rest => outerLoop other.points xoff yoff rp1.pos rest (0, 0, 0, 0)) =
        some st' →
      WalkInv other.points.length st' := by
    intro st' hst
    have hinv0 : WalkInv other.points.length (0, 0, 0, 0) := by
      refine ⟨rfl, Nat.zero_le _, le_refl 0, ?_⟩
      simp
    cases ht : t.points with
    | nil =>
      rw [ht] at hst
      injection hst with hst
      rw [← hst]
      exact hinv0
    | cons rp1 rest =>
      rw [ht] at hst
      exact outerLoop_inv other.points xoff yoff rest rp1.pos _ st' hinv0 hst
  rcases hM : (match t.points with
      | [] => some ((0 : ℕ), (0 : ℝ), (0 : ℕ), (0 : ℝ))
      | rp1 :: rest => outerLoop other.points xoff yoff rp1.pos rest (0, 0, 0, 0))
    with - | st'
  · rw [hM] at h
    exact absurd h (by simp)
  · rw [hM] at h
    obtain ⟨hq, hi2, hto0, htoM⟩ := hres st' hM
    obtain ⟨i2, totaloffsets, totalmatches, dist⟩ := st'
    dsimp only at hq hi2 hto0 htoM h
    split_ifs at h with htm
    · injection h with h
      rw [← h]
      have hM0 : (0 : ℝ) < MATCH_MAX_OFFSET := by norm_num [MATCH_MAX_OFFSET]
      have htmR : (0 : ℝ) < (totalmatches : ℝ) := by
        exact_mod_cast htm
      have hdivle : totaloffsets / (totalmatches : ℝ) ≤ MATCH_MAX_OFFSET := by
        rw [div_le_iff htmR]
        calc totaloffsets ≤ MATCH_MAX_OFFSET * totalmatches := htoM
          _ = MATCH_MAX_OFFSET * totalmatches := rfl
      have hdiv0 : 0 ≤ totaloffsets / (totalmatches : ℝ) :=
        div_nonneg hto0 (le_of_lt htmR)
      have hc0 : (0 : ℝ) ≤ ((totalmatches / other.points.length : ℕ) : ℝ) :=
        Nat.cast_nonneg _
      have hc1 : ((totalmatches / other.points.length : ℕ) : ℝ) ≤ 1 := by
        have hn2 : 0 < other.points.length := by omega
        have : totalmatches / other.points.length ≤
            other.points.length / other.points.length :=
          Nat.div_le_div_right (by omega)
        rw [Nat.div_self hn2] at this
        exact_mod_cast this
      have hs0 : 0 ≤ 1 - totaloffsets / (totalmatches : ℝ) / MATCH_MAX_OFFSET := by
        have : totaloffsets / (totalmatches : ℝ) / MATCH_MAX_OFFSET ≤ 1 := by
          rw [div_le_one hM0]
          exact hdivle
        linarith
      have hs1 : 1 - totaloffsets / (totalmatches : ℝ) / MATCH_MAX_OFFSET ≤ 1 := by
        have : 0 ≤ totaloffsets / (totalmatches : ℝ) / MATCH_MAX_OFFSET :=
          div_nonneg hdiv0 (le_of_lt hM0)
        linarith
      exact ⟨mul_nonneg hc0 hs0, mul_le_one hc1 hs0 hs1⟩
    · injection h with h
      rw [← h]
      norm_num

/-- C8: matchToOtherTrace always returns a value in the unit interval,
including on the swallowed-exception path of the source. -/
theorem C8_match_other_trace_unit (t other : TraceState) :
    0 ≤ matchToOtherTrace t other ∧ matchToOtherTrace t other ≤ 1 := by
  unfold matchToOtherTrace
  dsimp only
  rcases hA : matchToOtherTraceAux t other
      (other.referencePosition.X - t.referencePosition.X)
      (other.referencePosition.Y - t.referencePosition.Y) with - | q
  · norm_num
  · exact matchToOtherTraceAux_bounds t other _ _ q hA

/-- C2: evaluation of matchToPosition at a concrete failing input.  The
best match is found on the newest edge with raw distance 0 and anchor
(0,100), so the claimed result distance is min(prior.distance,
distance(position, anchor) + raw) = min(30, sqrt 2501) = 30 with the
prior quality.  The code instead returns distance sqrt 2501 with the best
quality 0.965, because oldMatchDistance and oldMatchQuality are
re-initialized to 9999 and 0 inside the sweep and the last edge pair
fails the heading gate (Trace.py lines 578-579). -/
theorem C2_min_distance_eval :
    matchToPosition exTraceC2 ⟨1, 50⟩ 0 (fun _ _ => true)
        (some ⟨1 / 2, 30, STATUS_MATCH⟩) =
      some ⟨0.965, getDistance ⟨1, 50⟩ ⟨0, 100⟩ + 0, STATUS_MATCH⟩ ∧
    (30 : ℝ) < getDistance ⟨1, 50⟩ ⟨0, 100⟩ + 0 ∧
    getDistance ⟨1, 50⟩ ⟨0, 100⟩ + 0 ≠
      min 30 (getDistance ⟨1, 50⟩ ⟨0, 100⟩ + 0) := by
  have hga : getDistance ⟨1, 50⟩ (⟨0, 100⟩ : Vec) = Real.sqrt 2501 := by
    unfold getDistance
    norm_num
  have h2501 : (30 : ℝ) < Real.sqrt 2501 :=
    (Real.lt_sqrt (by norm_num)).mpr (by norm_num)
  have hE1 : calcEdgeDistance ⟨0, 100⟩ ⟨0, 50⟩ ⟨1, 50⟩ = some 1 := by
    unfold calcEdgeDistance
    norm_num
  have hE2 : calcEdgeDistance ⟨0, 50⟩ ⟨0, 60⟩ ⟨1, 50⟩ = some 1 := by
    unfold calcEdgeDistance
    norm_num
  have hdir10 : getDirection ⟨0, 50⟩ ⟨0, 100⟩ = 0 :=
    getDirection_up 0 50 100 (by norm_num)
  have hdir21 : getDirection ⟨0, 60⟩ ⟨0, 50⟩ = Real.pi :=
    getDirection_down 0 60 50 (by norm_num)
  have hdirRef : getDirection ⟨1, 50⟩ ⟨1, 1000⟩ = 0 :=
    getDirection_up 1 50 1000 (by norm_num)
  have hd1 : getDistance ⟨0, 100⟩ ⟨0, 50⟩ = 50 := by
    rw [getDistance_vert]
    norm_num
  have hd2 : getDistance ⟨0, 50⟩ ⟨0, 60⟩ = 10 := by
    rw [getDistance_vert]
    norm_num
  have hmhd0 : (0 : ℝ) ≤ MATCH_MAX_HEADINGDELTA := by
    unfold MATCH_MAX_HEADINGDELTA
    positivity
  have hpinot : ¬ (Real.pi ≤ MATCH_MAX_HEADINGDELTA) := by
    unfold MATCH_MAX_HEADINGDELTA
    push_neg
    linarith [Real.pi_pos]
  have habs : |Real.pi| = Real.pi := abs_of_nonneg Real.pi_pos.le
  have hmax : max (0 : ℝ) (1 - 30 / MATCH_DIST_SMOOTH) = 0 :=
    max_eq_left (by norm_num [MATCH_DIST_SMOOTH])
  have hq : calcCombinedMatchQuality 1 0 (1 / 2) 30 = 0.965 := by
    unfold calcCombinedMatchQuality calcMatchQuality
    rw [hmax]
    norm_num [MATCH_MAX_OFFSET]
  have hsweep : sweep 0 ⟨1, 50⟩ (some ⟨1 / 2, 30, STATUS_MATCH⟩) ⟨0, 100⟩
      [⟨⟨0, 50⟩, 1, 0, 0⟩, ⟨⟨0, 60⟩, 0, 0, 0⟩] initSweep =
      some { bmquality := 0.965, bmoffset := 1, bmrawdist := 0, bmtp := some ⟨0, 100⟩,
             rawdist := 60, oldMD := 9999, oldMQ := 0 } := by
    norm_num [sweep, hE1, hE2, hdir10, hdir21, hd1, hd2, hq, initSweep,
      QUALITY_DELTA, MATCH_MAX_OFFSET, hmhd0, hpinot, habs]
  have hgate : ¬ ((0 : ℝ) + Real.pi / 2 < 0 ∨ (0 : ℝ) < 0 - Real.pi / 2) := by
    push_neg
    constructor <;> linarith [Real.pi_pos]
  have hlt9999 : getDistance ⟨1, 50⟩ ⟨0, 100⟩ + 0 < 9999 := by
    rw [hga, add_zero]
    exact (Real.sqrt_lt' (by norm_num)).mpr (by norm_num)
  refine ⟨?_, ?_, ?_⟩
  · unfold matchToPosition exTraceC2
    dsimp only
    rw [hdirRef, hdir10]
    rw [if_neg hgate]
    rw [hsweep]
    dsimp only
    rw [if_pos (by norm_num : (1 : ℝ) < 9999)]
    rw [if_neg (not_lt.mpr (le_of_lt hlt9999))]
    simp
  · rw [hga, add_zero]
    exact h2501
  · rw [hga, add_zero]
    rw [min_eq_left (le_of_lt h2501)]
    exact (ne_of_gt h2501)

end VehicleTrace
